import Mathlib

/-
  Verification of the ezbackup incremental-backup pipeline.

  Shallow embedding of the C sources:
    - src/crypt/crypt.c       (crypt_keys state machine, streaming encrypt/decrypt)
    - src/backup.c            (encrypt_file, extract_prev_checksums, func, backup)
    - src/main.c              (legacy orchestrator)
    - src/unnamed/part_000    (maketar.c: tar_extract_file, get_compressor_byname)
    - src/unnamed/part_002    (legacy crypt.c variant)

  C strings and file contents are modelled as lists of byte values (Nat);
  machine ints that the code only compares against 0 are modelled as Int
  return codes or as an explicit error type where noted.
-/

namespace EzBackup

/-- Bytes of a Lean string literal, used to write C string literals readably. -/
def strBytes (s : String) : List Nat := s.data.map Char.toNat

/-- The 8-byte magic written at the start of every encrypted file:
the C literal array salt_magic = "Salted__" without terminator
(crypt.c, local array in crypt_encrypt_ex / crypt_extract_salt). -/
def saltMagic : List Nat := strBytes "Salted__"

/-- Error causes behind the uniform C return code -1 of the crypt module.
The C functions log a distinct message per failure branch; the constructor
records which branch fired. -/
inductive CryptErr where
  | ioError      -- fopen/fread/fwrite failure
  | formatError  -- magic bytes mismatch in crypt_extract_salt
  | cryptoError  -- EVP primitive failure (init/update/final)
  | stateError   -- API called out of order (flag checks)
  | enomem       -- malloc failure
deriving Repr, DecidableEq

/-- struct crypt_keys (src/crypt/crypt.c lines 30-40).
The key/iv byte buffers, the 8-byte salt, the cipher identifier
(the EVP_CIPHER pointer, opaque here), and the three state-machine
bit flags. -/
structure CryptKeys where
  key : List Nat
  iv : List Nat
  salt : List Nat
  encryption : Nat
  flag_encryption_set : Bool
  flag_keys_set : Bool
  flag_salt_extracted : Bool
deriving Repr, DecidableEq

/-- Contract of the external OpenSSL EVP primitives consumed by crypt.c
(the crypto library is an out-of-scope collaborator; spec section 1).
bytesToKey models EVP_BytesToKey over (salt, password); encrypt
models the EncryptInit/Update/Final stream under (key, iv); decrypt
models the DecryptInit/Update/Final stream, returning none when
DecryptFinal rejects (for example bad padding under a wrong key). -/
structure EvpModel where
  bytesToKey : List Nat → List Nat → List Nat × List Nat
  encrypt : List Nat → List Nat → List Nat → List Nat
  decrypt : List Nat → List Nat → List Nat → Option (List Nat)

/-- crypt_new (crypt.c lines 42-52): calloc zeroes every field. -/
def crypt_new : CryptKeys :=
  { key := [], iv := [], salt := List.replicate 8 0, encryption := 0,
    flag_encryption_set := false, flag_keys_set := false,
    flag_salt_extracted := false }

/-- crypt_set_encryption (crypt.c lines 152-169): fails if the flag is
already set, otherwise records the cipher and raises flag_encryption_set. -/
def crypt_set_encryption (encryption : Nat) (fk : CryptKeys) :
    Except CryptErr CryptKeys :=
  if fk.flag_encryption_set then .error .stateError
  else .ok { fk with encryption := encryption, flag_encryption_set := true }

/-- crypt_gen_salt (crypt.c lines 107-110): fills the 8 salt bytes from the
CSPRNG; the random stream is passed in as a list. -/
def crypt_gen_salt (rand : List Nat) (fk : CryptKeys) : CryptKeys :=
  { fk with salt := rand.take 8 }

/-- crypt_set_salt (crypt.c lines 112-131): with a non-null salt, copies the
8 given bytes byte by byte; with a null salt, zeroes all 8 bytes.
Returns 0 in both cases. -/
def crypt_set_salt (salt : Option (List Nat)) (fk : CryptKeys) :
    Int × CryptKeys :=
  match salt with
  | some s => (0, { fk with salt := s.take 8 })
  | none => (0, { fk with salt := List.replicate 8 0 })

/-- crypt_extract_salt (crypt.c lines 384-433): read 8 bytes, require them
equal to the magic, read 8 more bytes into the salt, raise
flag_salt_extracted. Short reads fail before the magic comparison. -/
def crypt_extract_salt (file : List Nat) (fk : CryptKeys) :
    Except CryptErr CryptKeys :=
  if file.length < 8 then .error .ioError
  else if file.take 8 ≠ saltMagic then .error .formatError
  else if file.length < 16 then .error .ioError
  else .ok { fk with salt := (file.drop 8).take 8,
                     flag_salt_extracted := true }

/-- crypt_gen_keys (crypt.c lines 173-209): requires flag_encryption_set
(a fresh handle fails with the state error), then derives key and iv from
the password data and the salt via EVP_BytesToKey and raises
flag_keys_set. Neither salt flag is consulted. -/
def crypt_gen_keys (M : EvpModel) (data : List Nat) (fk : CryptKeys) :
    Except CryptErr CryptKeys :=
  if fk.flag_encryption_set = false then .error .stateError
  else
    let ki := M.bytesToKey fk.salt data
    .ok { fk with key := ki.1, iv := ki.2, flag_keys_set := true }

/-- crypt_encrypt_ex, success-path byte transformation (crypt.c lines
241-376): requires flag_keys_set, then the output file is the magic,
the 8 salt bytes, and the EVP ciphertext of the whole input. -/
def crypt_encrypt_ex (M : EvpModel) (input : List Nat) (fk : CryptKeys) :
    Except CryptErr (List Nat) :=
  if fk.flag_keys_set = false then .error .stateError
  else .ok (saltMagic ++ fk.salt ++ M.encrypt fk.key fk.iv input)

/-- crypt_decrypt_ex, byte transformation (crypt.c lines 437-570):
requires flag_keys_set and flag_salt_extracted, seeks past the 16 header
bytes, and decrypts the rest; a DecryptFinal failure (wrong key) yields
the crypto error and the partial output file is removed. -/
def crypt_decrypt_ex (M : EvpModel) (file : List Nat) (fk : CryptKeys) :
    Except CryptErr (List Nat) :=
  if fk.flag_keys_set = false then .error .stateError
  else if fk.flag_salt_extracted = false then .error .stateError
  else
    match M.decrypt fk.key fk.iv (file.drop 16) with
    | some m => .ok m
    | none => .error .cryptoError

/-- Fault-injection points inside crypt_encrypt_ex (crypt.c lines 241-376):
each flag tells whether the corresponding C call fails. -/
structure EncFaults where
  openInFail : Bool       -- fopen(in, "rb") returns NULL
  openOutFail : Bool      -- fopen(out, "wb") returns NULL
  writeHeaderFail : Bool  -- ferror after fwrite of the magic
  mallocFail : Bool       -- malloc(outbuffer) returns NULL
  ctxNewFail : Bool       -- EVP_CIPHER_CTX_new returns NULL
  encInitFail : Bool      -- EVP_EncryptInit_ex != 1
  encUpdateFail : Bool    -- EVP_EncryptUpdate != 1
  encFinalFail : Bool     -- EVP_EncryptFinal_ex != 1
deriving Repr, DecidableEq

/-- No fault injected: every external call succeeds. -/
def noFaults : EncFaults :=
  { openInFail := false, openOutFail := false, writeHeaderFail := false,
    mallocFail := false, ctxNewFail := false, encInitFail := false,
    encUpdateFail := false, encFinalFail := false }

/-- crypt_encrypt_ex with its goto-cleanup control flow (crypt.c lines
241-376).  Result: the returned int, and the contents of the output file
after cleanup (none when the file is absent, because cleanup runs
remove(out) whenever ret is nonzero).  The branch where
EVP_CIPHER_CTX_new fails jumps to cleanup WITHOUT assigning ret = -1
(lines 317-322), so that path returns 0 and keeps the partial file of
magic plus salt on disk. -/
def crypt_encrypt_ex_run (M : EvpModel) (f : EncFaults) (fk : CryptKeys)
    (input : List Nat) : Int × Option (List Nat) :=
  if f.openInFail then (-1, none)
  else if f.openOutFail then (-1, none)
  else if fk.flag_keys_set = false then (-1, none)
  else if f.writeHeaderFail then (-1, none)
  else if f.mallocFail then (-1, none)
  else if f.ctxNewFail then (0, some (saltMagic ++ fk.salt))
  else if f.encInitFail then (-1, none)
  else if f.encUpdateFail then (-1, none)
  else if f.encFinalFail then (-1, none)
  else (0, some (saltMagic ++ fk.salt ++ M.encrypt fk.key fk.iv input))

/-- The crypto steps of encrypt_file (src/backup.c lines 153-222) on the
success path of the prompts: crypt_new, crypt_set_encryption,
crypt_gen_salt from the CSPRNG, crypt_gen_keys from the password, then
crypt_encrypt_ex over the archive bytes. -/
def encryptPipeline (M : EvpModel) (cipher : Nat) (saltRand pw input : List Nat) :
    Except CryptErr (List Nat) :=
  match crypt_set_encryption cipher crypt_new with
  | .error e => .error e
  | .ok fk1 =>
    match crypt_gen_keys M pw (crypt_gen_salt saltRand fk1) with
    | .error e => .error e
    | .ok fk3 => crypt_encrypt_ex M input fk3

/-- The crypto steps of extract_prev_checksums (src/backup.c lines 71-151):
crypt_new, crypt_set_encryption, crypt_extract_salt from the encrypted
file, crypt_gen_keys from the password, then crypt_decrypt_ex. -/
def decryptPipeline (M : EvpModel) (cipher : Nat) (pw file : List Nat) :
    Except CryptErr (List Nat) :=
  match crypt_set_encryption cipher crypt_new with
  | .error e => .error e
  | .ok fk1 =>
    match crypt_extract_salt file fk1 with
    | .error e => .error e
    | .ok fk2 =>
      match crypt_gen_keys M pw fk2 with
      | .error e => .error e
      | .ok fk3 => crypt_decrypt_ex M file fk3

/-- Where crypt_scrub gets its random bytes (crypt.c lines 54-86):
RAND_bytes succeeding, the /dev/urandom fallback, or neither source
available (then the function returns -1 without touching the buffer). -/
inductive RandSource where
  | primary (bytes : List Nat)
  | fallback (bytes : List Nat)
  | unavailable
deriving Repr, DecidableEq

/-- crypt_scrub (crypt.c lines 54-86): overwrite the first len bytes of
the buffer with bytes from the random source; return 0 for RAND_bytes,
1 for the urandom fallback, -1 (buffer untouched) when no source works. -/
def crypt_scrub (src : RandSource) (buf : List Nat) (len : Nat) :
    Int × List Nat :=
  match src with
  | .primary bs => (0, bs.take len ++ buf.drop len)
  | .fallback bs => (1, bs.take len ++ buf.drop len)
  | .unavailable => (-1, buf)

/-- The scrub length used at every call site of the password scrub:
strlen(pw) + 5 + crypt_randc() % 11  (src/backup.c lines 112, 117, 192,
198, 205; src/main.c lines 207, 211, 263, 268, 274). -/
def scrub_len (pwlen r : Nat) : Nat := pwlen + 5 + r % 11

/-- State of the 1024-byte pwbuffer right after crypt_gen_keys returns in
encrypt_file and extract_prev_checksums (both the failure branch and the
success path issue the same call):
crypt_scrub(pwbuffer, strlen(pwbuffer) + 5 + crypt_randc() % 11).
The buffer is the password bytes followed by the rest of the buffer
(starting with the NUL terminator), so strlen(pwbuffer) = pw.length. -/
def encrypt_file_scrub (src : RandSource) (pw rest : List Nat) (r : Nat) :
    Int × List Nat :=
  crypt_scrub src (pw ++ rest) (scrub_len pw.length r)

/-- Outcomes of the sub-steps of encrypt_file (src/backup.c lines 153-222). -/
structure EncFileSteps where
  setEncryptionOk : Bool   -- crypt_set_encryption
  genSaltOk : Bool         -- crypt_gen_salt
  getPasswordRes : Int     -- crypt_getpassword (negative means failure)
  genKeysOk : Bool         -- crypt_gen_keys
  encryptRes : Int         -- crypt_encrypt_ex
deriving Repr, DecidableEq

/-- The value the local variable ret of encrypt_file (src/backup.c lines
153-222) holds when control reaches the cleanup label: -1 on every
failing sub-step, 0 on the success path. -/
def encrypt_file_ret (s : EncFileSteps) : Int :=
  if s.setEncryptionOk = false then -1
  else if s.genSaltOk = false then -1
  else if s.getPasswordRes < 0 then -1
  else if s.genKeysOk = false then -1
  else if s.encryptRes ≠ 0 then -1
  else 0

/-- encrypt_file (src/backup.c lines 153-222): the cleanup label frees the
keys, re-enables core dumps, and ends in the statement return 0, so the
computed ret is discarded and the function returns 0 on every path. -/
def encrypt_file_return (s : EncFileSteps) : Int × Int :=
  (encrypt_file_ret s, 0)

/-- Outcomes of the finalization steps of backup() (src/backup.c lines
503-529), entered with ret = 0. -/
structure BackupTailSteps where
  tarCloseOk : Bool        -- tar_close (step 8)
  encSet : Bool            -- opt->enc_algorithm nonnull
  encSteps : EncFileSteps  -- sub-steps of encrypt_file (step 9, cipher)
  renameOk : Bool          -- rename_ex (step 9, no cipher)
  writeConfOk : Bool       -- write_config_file (step 10)
deriving Repr, DecidableEq

/-- Steps 8-10 of backup() (src/backup.c lines 503-529).  Each failure is
answered with log_warning and execution continues; ret is never
reassigned after these steps, so the function returns ret = 0.  Result:
the return value of backup() and the warnings logged. -/
def backup_tail (s : BackupTailSteps) : Int × List String :=
  let w0 : List String :=
    if s.tarCloseOk = false then
      ["Failed to close tar. Data corruption possible"] else []
  let w1 : List String :=
    if s.encSet then
      if (encrypt_file_return s.encSteps).2 ≠ 0 then
        w0 ++ ["Failed to encrypt file"] else w0
    else
      if s.renameOk = false then
        w0 ++ ["Failed to create destination file"] else w0
  let w2 : List String :=
    if s.writeConfOk = false then
      w1 ++ ["Failed to write config file"] else w1
  (0, w2)

/-- A flat file system: paths (as byte strings) mapped to file contents. -/
abbrev FileSys := List (List Nat × List Nat)

/-- Content of a path, none when the file does not exist. -/
def fsGet (fs : FileSys) (p : List Nat) : Option (List Nat) :=
  match fs.find? (fun e => e.1 = p) with
  | some e => some e.2
  | none => none

/-- Create or overwrite a file. -/
def fsSet (fs : FileSys) (p : List Nat) (v : List Nat) : FileSys :=
  (p, v) :: fs.filter (fun e => e.1 ≠ p)

/-- A tar archive as the list of its members (logical path, payload).
The container library libarchive is an out-of-scope collaborator; this
executable encoding keeps only what tar_extract_file observes: the
member sequence.  Each member is encoded as name length, name bytes,
payload length, payload bytes. -/
def tarEncodeEntry (e : List Nat × List Nat) : List Nat :=
  e.1.length :: e.1 ++ (e.2.length :: e.2)

/-- Byte image of an archive holding the given members in order. -/
def tarEncode (es : List (List Nat × List Nat)) : List Nat :=
  match es with
  | [] => []
  | e :: rest => tarEncodeEntry e ++ tarEncode rest

/-- Fuelled decoder for the member list of an archive image; the fuel is
the byte length, which bounds the number of members. -/
def tarDecodeFuel : Nat → List Nat → List (List Nat × List Nat)
  | 0, _ => []
  | _ + 1, [] => []
  | fuel + 1, n :: rest =>
      let name := rest.take n
      match rest.drop n with
      | [] => []
      | m :: r2 => (name, r2.take m) :: tarDecodeFuel fuel (r2.drop m)

/-- Member list of an archive image; the empty file has no members. -/
def tarDecode (bs : List Nat) : List (List Nat × List Nat) :=
  tarDecodeFuel bs.length bs

/-- ARCHIVE_EOF of libarchive: tar_extract_file returns it when the wanted
member is not in the archive (src/unnamed/part_000 lines 554-557). -/
def ARCHIVE_EOF : Int := 1

/-- tar_extract_file (src/unnamed/part_000 lines 500-628) restricted to
what extract_prev_checksums observes: scan the members of the archive at
tarPath for the first one named member, write its payload to outPath,
and return 0; return ARCHIVE_EOF (nonzero) leaving the file system
unchanged when the archive has no such member, -1 when the archive file
itself is missing. -/
def tar_extract_file (fs : FileSys) (tarPath member outPath : List Nat) :
    Int × FileSys :=
  match fsGet fs tarPath with
  | none => (-1, fs)
  | some bytes =>
      match (tarDecode bytes).find? (fun e => e.1 = member) with
      | some e => (0, fsSet fs outPath e.2)
      | none => (ARCHIVE_EOF, fs)

/-- Remove a file (the C remove / unlink). -/
def fsRemove (fs : FileSys) (p : List Nat) : FileSys :=
  fs.filter (fun e => e.1 ≠ p)

/-- The logical member path "/checksums" of the digest index. -/
def checksums_member : List Nat := strBytes "/checksums"

/-- extract_prev_checksums (src/backup.c lines 71-151).  After setting the
cipher, extracting the salt from the prior archive at inP and deriving
keys from the password, the code opens a fresh temp file at tmpP, then
calls crypt_decrypt_ex(in, fk, out, ...) - writing the decrypted archive
into OUT, the prior-index file - and finally calls
tar_extract_file(tfp_decrypt->name, "/checksums", out), reading from the
never-written temp file.  The password prompt is assumed answered (pw)
and the core-dump rlimit juggling is dropped.  Result: the returned int
and the file system after the call. -/
def extract_prev_checksums (M : EvpModel) (fs : FileSys)
    (inP outP tmpP : List Nat) (cipher : Nat) (pw : List Nat) :
    Int × FileSys :=
  match fsGet fs inP with
  | none => (-1, fs)
  | some inBytes =>
    match crypt_set_encryption cipher crypt_new with
    | .error _ => (-1, fs)
    | .ok fk1 =>
      match crypt_extract_salt inBytes fk1 with
      | .error _ => (-1, fs)
      | .ok fk2 =>
        match crypt_gen_keys M pw fk2 with
        | .error _ => (-1, fs)
        | .ok fk3 =>
          let fs1 := fsSet fs tmpP []
          match crypt_decrypt_ex M inBytes fk3 with
          | .error _ => (-1, fsRemove fs1 outP)
          | .ok dec =>
            let fs2 := fsSet fs1 outP dec
            let te := tar_extract_file fs2 tmpP checksums_member outP
            if te.1 ≠ 0 then (-1, te.2)
            else (0, fsRemove te.2 tmpP)

/- A directory tree: regular files and subdirectories, named by the last
path component. -/
mutual
/-- One entry of a directory tree: a regular file or a subdirectory. -/
inductive FsTree where
  | file (name : List Nat)
  | dir (name : List Nat) (children : Forest)
/-- The ordered entries of one directory. -/
inductive Forest where
  | nil
  | cons (t : FsTree) (rest : Forest)
end

/- Modelled from the spec: fileiterator.c (enum_files) is not under src,
only its header and callers are.  Per spec section 4.1 the walker is a
depth-first traversal yielding (absolute path, metadata) for every
regular file; the callback of enum_files receives the file path and its
containing directory, and per the comment in func (src/backup.c line
282) and fi_skip_current_dir (src/fileiterator.h) a 0 return stops the
iteration of the current directory, skipping its remaining entries
(subdirectories included - the reading most favourable to subtree
exclusion). -/
mutual
/-- Modelled from the spec: visit one directory entry; the Bool says
whether the walk continues with the entry's siblings. -/
def walkTree {σ : Type} (cb : List Nat → List Nat → σ → σ × Bool)
    (parent : List Nat) : FsTree → σ → σ × Bool
  | .file n, s => cb (parent ++ 47 :: n) parent s
  | .dir n c, s => (walkForest cb (parent ++ 47 :: n) c s, true)
/-- Modelled from the spec: visit the entries of one directory in order,
stopping early when the callback returns 0 for a file in it. -/
def walkForest {σ : Type} (cb : List Nat → List Nat → σ → σ × Bool)
    (parent : List Nat) : Forest → σ → σ
  | .nil, s => s
  | .cons t rest, s =>
      match walkTree cb parent t s with
      | (s1, true) => walkForest cb parent rest s1
      | (s1, false) => s1
end

/-- Modelled from the spec: enum_files over one configured root (src/backup.c
line 466), driving the callback over every regular file under the root. -/
def enum_files {σ : Type} (cb : List Nat → List Nat → σ → σ × Bool)
    (root : List Nat) (children : Forest) (s : σ) : σ :=
  walkForest cb root children s

/-- The C literal "lost+found". -/
def lost_found : List Nat := strBytes "lost+found"

/-- The lost+found test of func (src/backup.c lines 276-277):
strlen(dir) > strlen("lost+found") and the last 10 bytes of dir equal
"lost+found" (a suffix test on the directory string). -/
def lostFoundSuffix (dir : List Nat) : Bool :=
  decide (dir.length > lost_found.length) &&
  decide (dir.drop (dir.length - lost_found.length) = lost_found)

/-- func, the per-file callback of the backup walk (src/backup.c lines
268-315): skip (return 0) when the directory ends in lost+found or
byte-exactly equals an exclusion entry; otherwise the file is processed
(checksum appended, file added to the tar) and 1 is returned.  The state
collects the processed (file, directory) pairs. -/
def func (excl : List (List Nat)) (file dir : List Nat)
    (added : List (List Nat × List Nat)) :
    List (List Nat × List Nat) × Bool :=
  if lostFoundSuffix dir then (added, false)
  else if dir ∈ excl then (added, false)
  else (added ++ [(file, dir)], true)

/-- Lowercasing of one byte as in strcmp_nocase (src/unnamed/part_000
lines 268-278): bytes between A and Z get 'a' - 'A' = 32 added. -/
def lowerByte (c : Nat) : Nat := if 65 ≤ c ∧ c ≤ 90 then c + 32 else c

/-- Lowercased copy of a byte string. -/
def lowerBytes (s : List Nat) : List Nat := s.map lowerByte

/-- strcmp_nocase (src/unnamed/part_000 lines 252-285) compared with 0:
both copies are lowercased and compared; only this zero test is consumed
by get_compressor_byname. -/
def strcmp_nocase_eq (a b : List Nat) : Bool :=
  decide (lowerBytes a = lowerBytes b)

/-- enum COMPRESSOR (src/maketar.h line 7). -/
inductive Compressor where
  | NONE | LZ4 | GZIP | BZIP2 | XZ | INVALID
deriving Repr, DecidableEq

/-- get_compressor_byname (src/unnamed/part_000 lines 630-654). -/
def get_compressor_byname (compressor : List Nat) : Compressor :=
  if strcmp_nocase_eq compressor (strBytes "none") ||
     strcmp_nocase_eq compressor (strBytes "off") then .NONE
  else if strcmp_nocase_eq compressor (strBytes "gzip") ||
          strcmp_nocase_eq compressor (strBytes "gz") then .GZIP
  else if strcmp_nocase_eq compressor (strBytes "bzip2") ||
          strcmp_nocase_eq compressor (strBytes "bz2") then .BZIP2
  else if strcmp_nocase_eq compressor (strBytes "xz") then .XZ
  else if strcmp_nocase_eq compressor (strBytes "lz4") then .LZ4
  else .INVALID

/-- compressor_to_string (src/unnamed/part_000 lines 656-671). -/
def compressor_to_string : Compressor → List Nat
  | .GZIP => strBytes "gzip"
  | .BZIP2 => strBytes "bzip2"
  | .XZ => strBytes "xz"
  | .LZ4 => strBytes "lz4"
  | .NONE => strBytes "none"
  | .INVALID => strBytes "unknown"

/-- The names get_compressor_byname recognizes, lowercased. -/
def recognizedCompressors : List (List Nat) :=
  [strBytes "none", strBytes "off", strBytes "gzip", strBytes "gz",
   strBytes "bzip2", strBytes "bz2", strBytes "xz", strBytes "lz4"]

/-- A concrete instantiation of the external EVP contract, used to witness
the cipher-parametric theorems: the derived key is salt ++ password, the
ciphertext tags the message with the key length and the key, and
decryption rejects exactly when that tag does not match. -/
def toyEvp : EvpModel where
  bytesToKey := fun salt pw => (salt ++ pw, [0])
  encrypt := fun k _ m => k.length :: (k ++ m)
  decrypt := fun k _ c =>
    if c.take (k.length + 1) = k.length :: k then
      some (c.drop (k.length + 1))
    else none

/-- A handle in the READY state (cipher set, keys derived), as produced by
crypt_set_encryption, crypt_gen_salt and crypt_gen_keys. -/
def readyKeys : CryptKeys :=
  { key := [7], iv := [9], salt := [1, 2, 3, 4, 5, 6, 7, 8], encryption := 1,
    flag_encryption_set := true, flag_keys_set := true,
    flag_salt_extracted := false }

/-- A small digest index payload for the prior-archive scenario. -/
def priorIndexBytes : List Nat := [5, 6, 7]

/-- A prior archive holding that index at the logical path /checksums. -/
def priorArchiveBytes : List Nat :=
  tarEncode [(checksums_member, priorIndexBytes)]

/-- The prior archive encrypted under the toy EVP contract with password
byte 112 and salt 1..8. -/
def priorEncrypted : List Nat :=
  match encryptPipeline toyEvp 1 [1, 2, 3, 4, 5, 6, 7, 8] [112]
      priorArchiveBytes with
  | .ok e => e
  | .error _ => []

/-- A root whose excluded subdirectory excl holds no regular file directly,
only the subdirectory sub with the file f in it. -/
def exclTree : Forest :=
  .cons (.dir (strBytes "excl")
    (.cons (.dir (strBytes "sub")
      (.cons (.file (strBytes "f")) .nil)) .nil)) .nil

/-- The file system of the prior-archive scenario: the encrypted prior
archive stored at /prior. -/
def c3FileSys : FileSys := [(strBytes "/prior", priorEncrypted)]

/-- extract_prev_checksums run on that scenario: decrypt /prior and pull
/checksums into the prior-index file /previdx via the temp /tmpdec. -/
def c3Result : Int × FileSys :=
  extract_prev_checksums toyEvp c3FileSys (strBytes "/prior")
    (strBytes "/previdx") (strBytes "/tmpdec") 1 [112]

/- ------------------------------------------------------------------ -/
/- Helper lemmas                                                       -/
/- ------------------------------------------------------------------ -/

theorem lowerByte_idem (c : Nat) : lowerByte (lowerByte c) = lowerByte c := by
  unfold lowerByte
  split
  · split <;> omega
  · rfl

theorem lowerBytes_idem (s : List Nat) :
    lowerBytes (lowerBytes s) = lowerBytes s := by
  unfold lowerBytes
  rw [List.map_map]
  exact List.map_congr_left (fun c _ => lowerByte_idem c)

theorem take8_of_append {l rest : List Nat} (h : l.length = 8) :
    (l ++ rest).take 8 = l :=
  List.take_left' h

theorem drop8_of_append {l rest : List Nat} (h : l.length = 8) :
    (l ++ rest).drop 8 = rest :=
  List.drop_left' h

theorem saltMagic_length : saltMagic.length = 8 := by decide

/-- C9 preliminary: taking all of an 8-byte list. -/
theorem take8_of_len8 {s : List Nat} (h : s.length = 8) : s.take 8 = s := by
  rw [← h]
  exact List.take_length s

/- ------------------------------------------------------------------ -/
/- C9                                                                  -/
/- ------------------------------------------------------------------ -/

/-- C9: crypt_set_salt with a null salt pointer sets all 8 salt bytes of
the handle to zero and returns 0; with a non-null 8-byte salt it copies
exactly those 8 bytes into the salt field; in both cases every other
field of the handle is unchanged (the result is the input record with
only the salt replaced). -/
theorem crypt_set_salt_spec (fk : CryptKeys) (s : List Nat)
    (h : s.length = 8) :
    crypt_set_salt (some s) fk = (0, { fk with salt := s }) ∧
    crypt_set_salt none fk = (0, { fk with salt := List.replicate 8 0 }) ∧
    (crypt_set_salt (some s) fk).2.key = fk.key ∧
    (crypt_set_salt (some s) fk).2.iv = fk.iv ∧
    (crypt_set_salt (some s) fk).2.encryption = fk.encryption ∧
    (crypt_set_salt (some s) fk).2.flag_encryption_set
      = fk.flag_encryption_set ∧
    (crypt_set_salt (some s) fk).2.flag_keys_set = fk.flag_keys_set ∧
    (crypt_set_salt (some s) fk).2.flag_salt_extracted
      = fk.flag_salt_extracted ∧
    (crypt_set_salt none fk).2.key = fk.key ∧
    (crypt_set_salt none fk).2.iv = fk.iv ∧
    (crypt_set_salt none fk).2.encryption = fk.encryption ∧
    (crypt_set_salt none fk).2.flag_encryption_set
      = fk.flag_encryption_set ∧
    (crypt_set_salt none fk).2.flag_keys_set = fk.flag_keys_set ∧
    (crypt_set_salt none fk).2.flag_salt_extracted
      = fk.flag_salt_extracted := by
  simp [crypt_set_salt, take8_of_len8 h]

/-- C9 witness: the theorem applied to a fresh handle and the concrete
salt 1..8. -/
theorem crypt_set_salt_spec_witness :
    crypt_set_salt (some [1, 2, 3, 4, 5, 6, 7, 8]) crypt_new
      = (0, { crypt_new with salt := [1, 2, 3, 4, 5, 6, 7, 8] }) :=
  (crypt_set_salt_spec crypt_new [1, 2, 3, 4, 5, 6, 7, 8] (by decide)).1

/- ------------------------------------------------------------------ -/
/- C10                                                                 -/
/- ------------------------------------------------------------------ -/

/-- C10: compressor-name resolution is case-insensitive (lowercasing the
argument does not change the result), every name outside the recognized
set resolves to COMPRESSOR_INVALID, and for each supported compressor
the printer round-trips: get_compressor_byname of compressor_to_string
gives the compressor back. -/
theorem get_compressor_byname_spec :
    (∀ c ∈ [Compressor.NONE, Compressor.GZIP, Compressor.BZIP2,
            Compressor.XZ, Compressor.LZ4],
      get_compressor_byname (compressor_to_string c) = c) ∧
    (∀ s, get_compressor_byname (lowerBytes s) = get_compressor_byname s) ∧
    (∀ s, lowerBytes s ∉ recognizedCompressors →
      get_compressor_byname s = Compressor.INVALID) := by
  refine ⟨by decide, ?_, ?_⟩
  · intro s
    simp only [get_compressor_byname, strcmp_nocase_eq, lowerBytes_idem]
  · intro s h
    simp only [recognizedCompressors, List.mem_cons,
      List.not_mem_nil, or_false, not_or] at h
    obtain ⟨h1, h2, h3, h4, h5, h6, h7, h8⟩ := h
    have e1 : lowerBytes (strBytes "none") = strBytes "none" := by decide
    have e2 : lowerBytes (strBytes "off") = strBytes "off" := by decide
    have e3 : lowerBytes (strBytes "gzip") = strBytes "gzip" := by decide
    have e4 : lowerBytes (strBytes "gz") = strBytes "gz" := by decide
    have e5 : lowerBytes (strBytes "bzip2") = strBytes "bzip2" := by decide
    have e6 : lowerBytes (strBytes "bz2") = strBytes "bz2" := by decide
    have e7 : lowerBytes (strBytes "xz") = strBytes "xz" := by decide
    have e8 : lowerBytes (strBytes "lz4") = strBytes "lz4" := by decide
    simp [get_compressor_byname, strcmp_nocase_eq,
      e1, e2, e3, e4, e5, e6, e7, e8, h1, h2, h3, h4, h5, h6, h7, h8]

/-- C10 witness: the unrecognized-name branch applied to the concrete
name zstd. -/
theorem get_compressor_byname_spec_witness :
    get_compressor_byname (strBytes "zstd") = Compressor.INVALID :=
  get_compressor_byname_spec.2.2 (strBytes "zstd") (by decide)

/- ------------------------------------------------------------------ -/
/- C6                                                                  -/
/- ------------------------------------------------------------------ -/

/-- C6: every file produced by crypt_encrypt_ex begins with the 8 ASCII
bytes Salted__ (no terminator) immediately followed by the 8-byte salt
of the handle, and the ciphertext starts exactly at byte offset 16. -/
theorem crypt_encrypt_ex_header (M : EvpModel) (fk : CryptKeys)
    (input : List Nat) (hkeys : fk.flag_keys_set = true)
    (hsalt : fk.salt.length = 8) :
    ∃ out, crypt_encrypt_ex M input fk = .ok out ∧
      out.take 8 = saltMagic ∧
      (out.drop 8).take 8 = fk.salt ∧
      out.drop 16 = M.encrypt fk.key fk.iv input := by
  refine ⟨saltMagic ++ fk.salt ++ M.encrypt fk.key fk.iv input, ?_, ?_, ?_, ?_⟩
  · simp [crypt_encrypt_ex, hkeys]
  · rw [List.append_assoc]
    exact take8_of_append saltMagic_length
  · rw [List.append_assoc, drop8_of_append saltMagic_length]
    exact take8_of_append hsalt
  · exact List.drop_left' (by simp [saltMagic_length, hsalt])

/-- C6 witness: the header layout at a READY handle and the input 1,2,3
under the toy EVP contract. -/
theorem crypt_encrypt_ex_header_witness :
    ∃ out, crypt_encrypt_ex toyEvp [1, 2, 3] readyKeys = .ok out ∧
      out.take 8 = saltMagic ∧
      (out.drop 8).take 8 = readyKeys.salt ∧
      out.drop 16 = toyEvp.encrypt readyKeys.key readyKeys.iv [1, 2, 3] :=
  crypt_encrypt_ex_header toyEvp readyKeys [1, 2, 3] (by decide) (by decide)

/- ------------------------------------------------------------------ -/
/- C5                                                                  -/
/- ------------------------------------------------------------------ -/

/-- C5: the crypt_keys handle enforces its state machine.  On a fresh
handle crypt_gen_keys fails with the state error; after
crypt_set_encryption it succeeds both when the salt came from
crypt_gen_salt and when it came from crypt_extract_salt; and on any
handle whose keys were not generated, crypt_encrypt_ex and
crypt_decrypt_ex fail with the state error - the encrypt run leaves no
output file and the pure results carry no encrypted or decrypted data. -/
theorem crypt_state_machine (M : EvpModel) (cipher : Nat)
    (pw file input rand : List Nat)
    (hmagic : file.take 8 = saltMagic) (hlen : 16 ≤ file.length) :
    crypt_gen_keys M pw crypt_new = .error .stateError ∧
    (∃ fk1, crypt_set_encryption cipher crypt_new = .ok fk1 ∧
      (∃ fk2, crypt_gen_keys M pw (crypt_gen_salt rand fk1) = .ok fk2) ∧
      (∃ fk3, crypt_extract_salt file fk1 = .ok fk3 ∧
        ∃ fk4, crypt_gen_keys M pw fk3 = .ok fk4)) ∧
    (∀ fk : CryptKeys, fk.flag_keys_set = false →
      crypt_encrypt_ex M input fk = .error .stateError ∧
      crypt_encrypt_ex_run M noFaults fk input = (-1, none) ∧
      crypt_decrypt_ex M file fk = .error .stateError) := by
  refine ⟨?_, ?_, ?_⟩
  · simp [crypt_gen_keys, crypt_new]
  · refine ⟨({ crypt_new with encryption := cipher, flag_encryption_set := true } : CryptKeys), rfl, ?_, ?_⟩
    · exact ⟨_, rfl⟩
    · unfold crypt_extract_salt
      rw [if_neg (by omega), if_neg (by simp [hmagic]), if_neg (by omega)]
      exact ⟨_, rfl, _, rfl⟩
  · intro fk hk
    refine ⟨?_, ?_, ?_⟩
    · simp [crypt_encrypt_ex, hk]
    · simp [crypt_encrypt_ex_run, noFaults, hk]
    · simp [crypt_decrypt_ex, hk]

/-- C5 witness: the state machine at the null cipher, the password byte
1, a well-formed 16-byte encrypted file, the salt source 1..8, and the
keyless fresh handle. -/
theorem crypt_state_machine_witness :
    crypt_gen_keys toyEvp [1] crypt_new = .error .stateError ∧
    (∃ fk1, crypt_set_encryption 0 crypt_new = .ok fk1 ∧
      (∃ fk2, crypt_gen_keys toyEvp [1]
        (crypt_gen_salt [1, 2, 3, 4, 5, 6, 7, 8] fk1) = .ok fk2) ∧
      (∃ fk3, crypt_extract_salt
          (saltMagic ++ [1, 2, 3, 4, 5, 6, 7, 8]) fk1 = .ok fk3 ∧
        ∃ fk4, crypt_gen_keys toyEvp [1] fk3 = .ok fk4)) ∧
    (∀ fk : CryptKeys, fk.flag_keys_set = false →
      crypt_encrypt_ex toyEvp [9] fk = .error .stateError ∧
      crypt_encrypt_ex_run toyEvp noFaults fk [9] = (-1, none) ∧
      crypt_decrypt_ex toyEvp
        (saltMagic ++ [1, 2, 3, 4, 5, 6, 7, 8]) fk = .error .stateError) :=
  crypt_state_machine toyEvp 0 [1] (saltMagic ++ [1, 2, 3, 4, 5, 6, 7, 8])
    [9] [1, 2, 3, 4, 5, 6, 7, 8] (by decide) (by decide)

/- ------------------------------------------------------------------ -/
/- C8                                                                  -/
/- ------------------------------------------------------------------ -/

/-- C8: right after crypt_gen_keys returns (the failure branch and the
success path issue the same call) the password buffer is scrubbed over
strlen(pw) + 5 + rand % 11 bytes - a length strictly larger than the
password - so with either working random source (RAND_bytes or the
/dev/urandom fallback) the password region is completely replaced by
the random bytes; whenever those random bytes differ from the password,
the region that held the password no longer equals the password. -/
theorem password_scrub_spec (pw rest bytes : List Nat) (r : Nat)
    (hlen : pw.length ≤ bytes.length)
    (hneq : bytes.take pw.length ≠ pw) :
    pw.length < scrub_len pw.length r ∧
    (encrypt_file_scrub (.primary bytes) pw rest r).2.take pw.length
      = bytes.take pw.length ∧
    (encrypt_file_scrub (.fallback bytes) pw rest r).2.take pw.length
      = bytes.take pw.length ∧
    (encrypt_file_scrub (.primary bytes) pw rest r).2.take pw.length ≠ pw ∧
    (encrypt_file_scrub (.fallback bytes) pw rest r).2.take pw.length ≠ pw := by
  have hcover : pw.length < scrub_len pw.length r := by
    unfold scrub_len
    omega
  have key : (bytes.take (scrub_len pw.length r)
        ++ (pw ++ rest).drop (scrub_len pw.length r)).take pw.length
      = bytes.take pw.length := by
    rw [List.take_append_of_le_length, List.take_take,
      Nat.min_eq_left hcover.le]
    rw [List.length_take]
    exact le_min hcover.le hlen
  refine ⟨hcover, ?_, ?_, ?_, ?_⟩
  · simpa [encrypt_file_scrub, crypt_scrub] using key
  · simpa [encrypt_file_scrub, crypt_scrub] using key
  · simpa [encrypt_file_scrub, crypt_scrub, key] using hneq
  · simpa [encrypt_file_scrub, crypt_scrub, key] using hneq

/-- C8 witness: the scrub at the 2-byte password 112, 119 with a random
stream of zeros. -/
theorem password_scrub_spec_witness :
    ([112, 119] : List Nat).length
      ≤ (List.replicate 20 0 : List Nat).length ∧
    (encrypt_file_scrub (.primary (List.replicate 20 0)) [112, 119] [0] 3).2.take 2
      ≠ [112, 119] :=
  ⟨by decide,
   (password_scrub_spec [112, 119] [0] (List.replicate 20 0) 3
     (by decide) (by decide)).2.2.2.1⟩

/- ------------------------------------------------------------------ -/
/- C4                                                                  -/
/- ------------------------------------------------------------------ -/

/-- C4: evaluation of crypt_encrypt_ex at the failing input where
EVP_CIPHER_CTX_new returns NULL.  The branch jumps to cleanup without
assigning ret = -1 (crypt.c lines 317-322), so the function returns 0
(success) and the partial output file - the magic plus the salt, with
no ciphertext - stays on disk, contradicting the claim that every
internal failure yields a nonzero CryptoError result with the partial
output removed.  Every other injected failure does behave as claimed. -/
theorem crypt_encrypt_ex_ctx_fault :
    crypt_encrypt_ex_run toyEvp
      { noFaults with ctxNewFail := true } readyKeys [1, 2, 3]
      = (0, some (saltMagic ++ [1, 2, 3, 4, 5, 6, 7, 8])) ∧
    (∀ f : EncFaults, f.ctxNewFail = false →
      (f.openInFail || f.openOutFail || f.writeHeaderFail || f.mallocFail ||
       f.encInitFail || f.encUpdateFail || f.encFinalFail) = true →
      ∀ (M : EvpModel) (fk : CryptKeys) (input : List Nat),
        crypt_encrypt_ex_run M f fk input = (-1, none)) := by
  refine ⟨by decide, ?_⟩
  intro f hctx hany M fk input
  unfold crypt_encrypt_ex_run
  by_cases h1 : f.openInFail = true
  · simp [h1]
  · by_cases h2 : f.openOutFail = true
    · simp [h1, h2]
    · by_cases h3 : fk.flag_keys_set = false
      · simp [h1, h2, h3]
      · by_cases h4 : f.writeHeaderFail = true
        · simp [h1, h2, h3, h4]
        · by_cases h5 : f.mallocFail = true
          · simp [h1, h2, h3, h4, h5]
          · by_cases h6 : f.encInitFail = true
            · simp [h1, h2, h3, h4, h5, h6, hctx]
            · by_cases h7 : f.encUpdateFail = true
              · simp [h1, h2, h3, h4, h5, h6, h7, hctx]
              · by_cases h8 : f.encFinalFail = true
                · simp [h1, h2, h3, h4, h5, h6, h7, h8, hctx]
                · exfalso
                  simp [h1, h2, h4, h5, h6, h7, h8] at hany

/-- C4 witness: the well-behaved part of the theorem applied to the
concrete failure of EVP_EncryptInit_ex. -/
theorem crypt_encrypt_ex_ctx_fault_witness :
    crypt_encrypt_ex_run toyEvp
      { noFaults with encInitFail := true } readyKeys [1, 2, 3]
      = (-1, none) :=
  crypt_encrypt_ex_ctx_fault.2 { noFaults with encInitFail := true }
    (by decide) (by decide) toyEvp readyKeys [1, 2, 3]

/- ------------------------------------------------------------------ -/
/- C2                                                                  -/
/- ------------------------------------------------------------------ -/

/-- C2 counterexample: a run in which tar_close fails (step 8) and the
final encryption fails inside crypt_encrypt_ex (step 9) still returns 0
from backup().  The close failure only logs a warning, and encrypt_file
returns 0 unconditionally - its internal ret is -1 but the function ends
in return 0 - so not even the encryption warning fires.  This
contradicts the claim that both failures abort the run with a nonzero
exit status. -/
theorem backup_step89_counterexample :
    backup_tail
      { tarCloseOk := false, encSet := true,
        encSteps := { setEncryptionOk := true, genSaltOk := true,
                      getPasswordRes := 0, genKeysOk := true,
                      encryptRes := -1 },
        renameOk := true, writeConfOk := true }
      = (0, ["Failed to close tar. Data corruption possible"]) ∧
    encrypt_file_return
      { setEncryptionOk := true, genSaltOk := true, getPasswordRes := 0,
        genKeysOk := true, encryptRes := -1 }
      = (-1, 0) := by
  constructor
  · rfl
  · rfl

/-- C2 amended: failures of step 8 (archive close) and step 9 (final
encryption) do not abort the run.  backup() always returns 0 from its
finalization phase; a close failure is logged as a warning; encrypt_file
returns 0 even when a sub-step failed (its computed ret is discarded by
the final return 0); and the removal of the in-progress output is
performed inside crypt_encrypt_ex, which removes the partial file
whenever it returns nonzero. -/
theorem backup_step89_amended (s : BackupTailSteps) (M : EvpModel)
    (f : EncFaults) (fk : CryptKeys) (input : List Nat) :
    (backup_tail s).1 = 0 ∧
    (s.tarCloseOk = false →
      "Failed to close tar. Data corruption possible" ∈ (backup_tail s).2) ∧
    (encrypt_file_return s.encSteps).2 = 0 ∧
    ((crypt_encrypt_ex_run M f fk input).1 ≠ 0 →
      (crypt_encrypt_ex_run M f fk input).2 = none) := by
  refine ⟨rfl, ?_, rfl, ?_⟩
  · intro hclose
    simp only [backup_tail, hclose]
    split_ifs <;> simp
  · unfold crypt_encrypt_ex_run
    split_ifs <;> intro hret <;> first | rfl | exact absurd rfl hret

/-- C2 witness: the amended behavior at the concrete failing run of the
counterexample. -/
theorem backup_step89_amended_witness :
    "Failed to close tar. Data corruption possible" ∈
      (backup_tail
        { tarCloseOk := false, encSet := true,
          encSteps := { setEncryptionOk := true, genSaltOk := true,
                        getPasswordRes := 0, genKeysOk := true,
                        encryptRes := -1 },
          renameOk := true, writeConfOk := true }).2 :=
  (backup_step89_amended
    { tarCloseOk := false, encSet := true,
      encSteps := { setEncryptionOk := true, genSaltOk := true,
                    getPasswordRes := 0, genKeysOk := true,
                    encryptRes := -1 },
      renameOk := true, writeConfOk := true }
    toyEvp noFaults crypt_new []).2.1 rfl

/- ------------------------------------------------------------------ -/
/- C3                                                                  -/
/- ------------------------------------------------------------------ -/

/-- C3: evaluation of extract_prev_checksums (src/backup.c) on an
encrypted prior archive whose /checksums member is present and well
formed.  Because the code passes out - the prior-index file - as the
destination of crypt_decrypt_ex and then runs tar_extract_file on the
never-written temp file, the call returns -1, the prior-index file ends
up holding the entire decrypted archive instead of the digest index,
and the temp file is still empty; extracting from the decrypted bytes
themselves would have succeeded, as the last conjunct shows. -/
theorem extract_prev_checksums_aliased :
    encryptPipeline toyEvp 1 [1, 2, 3, 4, 5, 6, 7, 8] [112]
        priorArchiveBytes = .ok priorEncrypted ∧
    (tarDecode priorArchiveBytes).find? (fun e => e.1 = checksums_member)
      = some (checksums_member, priorIndexBytes) ∧
    c3Result.1 = -1 ∧
    fsGet c3Result.2 (strBytes "/previdx") = some priorArchiveBytes ∧
    fsGet c3Result.2 (strBytes "/previdx") ≠ some priorIndexBytes ∧
    fsGet c3Result.2 (strBytes "/tmpdec") = some [] ∧
    tar_extract_file [(strBytes "/d", priorArchiveBytes)] (strBytes "/d")
        checksums_member (strBytes "/previdx")
      = (0, fsSet [(strBytes "/d", priorArchiveBytes)]
          (strBytes "/previdx") priorIndexBytes) := by
  refine ⟨rfl, ?_, ?_, ?_, ?_, ?_, ?_⟩ <;> decide

/- ------------------------------------------------------------------ -/
/- C1                                                                  -/
/- ------------------------------------------------------------------ -/

/-- C1: under the EVP contract - decryption with the derived key inverts
encryption, and decryption under different derived keys is rejected by
DecryptFinal - encrypting a file with keys derived from a password and
decrypting with keys derived from the same password (salt taken from the
encrypted file) returns the original bytes, while a password whose
derived keys differ makes the decrypt pipeline fail with the crypto
error rather than produce the original. -/
theorem crypt_roundtrip (M : EvpModel) (cipher : Nat)
    (saltRand pw pw2 input : List Nat) (hsalt : 8 ≤ saltRand.length)
    (hdec : M.decrypt (M.bytesToKey (saltRand.take 8) pw).1
        (M.bytesToKey (saltRand.take 8) pw).2
        (M.encrypt (M.bytesToKey (saltRand.take 8) pw).1
          (M.bytesToKey (saltRand.take 8) pw).2 input) = some input)
    (hwrong : M.bytesToKey (saltRand.take 8) pw2
        ≠ M.bytesToKey (saltRand.take 8) pw →
      M.decrypt (M.bytesToKey (saltRand.take 8) pw2).1
        (M.bytesToKey (saltRand.take 8) pw2).2
        (M.encrypt (M.bytesToKey (saltRand.take 8) pw).1
          (M.bytesToKey (saltRand.take 8) pw).2 input) = none) :
    ∃ enc, encryptPipeline M cipher saltRand pw input = .ok enc ∧
      decryptPipeline M cipher pw enc = .ok input ∧
      (M.bytesToKey (saltRand.take 8) pw2
          ≠ M.bytesToKey (saltRand.take 8) pw →
        decryptPipeline M cipher pw2 enc = .error .cryptoError) := by
  have hslen : (saltRand.take 8).length = 8 := by
    rw [List.length_take]
    omega
  have henc : encryptPipeline M cipher saltRand pw input
      = .ok (saltMagic ++ saltRand.take 8
          ++ M.encrypt (M.bytesToKey (saltRand.take 8) pw).1
               (M.bytesToKey (saltRand.take 8) pw).2 input) := rfl
  set ct := M.encrypt (M.bytesToKey (saltRand.take 8) pw).1
      (M.bytesToKey (saltRand.take 8) pw).2 input with hct
  set enc := saltMagic ++ saltRand.take 8 ++ ct with hencdef
  have hlen16 : 16 ≤ enc.length := by
    simp only [hencdef, List.length_append, saltMagic_length, hslen]
    omega
  have htake : enc.take 8 = saltMagic := by
    rw [hencdef, List.append_assoc]
    exact take8_of_append saltMagic_length
  have hsaltrec : (enc.drop 8).take 8 = saltRand.take 8 := by
    rw [hencdef, List.append_assoc, drop8_of_append saltMagic_length]
    exact take8_of_append hslen
  have hdrop16 : enc.drop 16 = ct := by
    rw [hencdef]
    exact List.drop_left' (by simp [saltMagic_length, hslen])
  have hextract : ∀ fk1 : CryptKeys,
      crypt_extract_salt enc fk1
        = .ok { fk1 with salt := saltRand.take 8,
                         flag_salt_extracted := true } := by
    intro fk1
    unfold crypt_extract_salt
    rw [if_neg (by omega), if_neg (by simp [htake]), if_neg (by omega),
      hsaltrec]
  have hdecpipe : ∀ pw3 : List Nat,
      decryptPipeline M cipher pw3 enc
        = match M.decrypt (M.bytesToKey (saltRand.take 8) pw3).1
            (M.bytesToKey (saltRand.take 8) pw3).2 ct with
          | some m => .ok m
          | none => .error .cryptoError := by
    intro pw3
    simp [decryptPipeline, crypt_set_encryption, crypt_new, hextract,
      crypt_gen_keys, crypt_decrypt_ex, hdrop16]
  refine ⟨enc, henc, ?_, ?_⟩
  · rw [hdecpipe pw, hdec]
  · intro hne
    rw [hdecpipe pw2, hwrong hne]

/-- C1 witness: the round trip at the toy EVP contract, salt 1..8,
password byte 1 against the different password byte 2, and the payload
9, 9. -/
theorem crypt_roundtrip_witness :
    ∃ enc, encryptPipeline toyEvp 1 [1, 2, 3, 4, 5, 6, 7, 8] [1] [9, 9]
        = .ok enc ∧
      decryptPipeline toyEvp 1 [1] enc = .ok [9, 9] ∧
      (toyEvp.bytesToKey (([1, 2, 3, 4, 5, 6, 7, 8] : List Nat).take 8) [2]
          ≠ toyEvp.bytesToKey (([1, 2, 3, 4, 5, 6, 7, 8] : List Nat).take 8) [1] →
        decryptPipeline toyEvp 1 [2] enc = .error .cryptoError) :=
  crypt_roundtrip toyEvp 1 [1, 2, 3, 4, 5, 6, 7, 8] [1] [2] [9, 9]
    (by decide) (by decide) (by decide)

/- ------------------------------------------------------------------ -/
/- C7                                                                  -/
/- ------------------------------------------------------------------ -/

mutual
/-- Every pair the walk of one entry adds under the func callback was
already in the state, or its directory passes both skip tests. -/
theorem walkTree_func_mem (excl : List (List Nat)) (p d : List Nat) :
    ∀ (parent : List Nat) (t : FsTree)
      (s : List (List Nat × List Nat)),
      (p, d) ∈ (walkTree (func excl) parent t s).1 →
      (p, d) ∈ s ∨ (d ∉ excl ∧ lostFoundSuffix d = false)
  | parent, .file n, s, h => by
      rw [walkTree] at h
      unfold func at h
      by_cases h1 : lostFoundSuffix parent
      · rw [if_pos h1] at h
        exact .inl h
      · rw [if_neg h1] at h
        by_cases h2 : parent ∈ excl
        · rw [if_pos h2] at h
          exact .inl h
        · rw [if_neg h2] at h
          simp only [List.mem_append, List.mem_singleton] at h
          rcases h with h | h
          · exact .inl h
          · refine .inr ?_
            rw [Prod.mk.injEq] at h
            obtain ⟨hp, hd⟩ := h
            subst hd
            exact ⟨h2, by simpa using h1⟩
  | parent, .dir n c, s, h => by
      rw [walkTree] at h
      exact walkForest_func_mem excl p d (parent ++ 47 :: n) c s h
/-- Every pair the walk of a sibling list adds under the func callback
was already in the state, or its directory passes both skip tests. -/
theorem walkForest_func_mem (excl : List (List Nat)) (p d : List Nat) :
    ∀ (parent : List Nat) (f : Forest)
      (s : List (List Nat × List Nat)),
      (p, d) ∈ walkForest (func excl) parent f s →
      (p, d) ∈ s ∨ (d ∉ excl ∧ lostFoundSuffix d = false)
  | _, .nil, _, h => .inl h
  | parent, .cons t rest, s, h => by
      rw [walkForest] at h
      rcases heq : walkTree (func excl) parent t s with ⟨s1, b⟩
      rw [heq] at h
      have hstep := walkTree_func_mem excl p d parent t s
      cases b with
      | true =>
          rcases walkForest_func_mem excl p d parent rest s1 h with h1 | h1
          · exact hstep (by rw [heq]; exact h1)
          · exact .inr h1
      | false => exact hstep (by rw [heq]; exact h)
end

/-- C7 counterexample: with the exclusion entry /r/excl and a tree in
which the excluded directory holds no regular file directly, the file
/r/excl/sub/f - inside a subdirectory of the excluded directory - is
processed (added to the archive and the digest index): the per-file
exclusion test compares the exclusion entry against the file's immediate
directory only, and /r/excl/sub is not byte-equal to /r/excl.  The
second conjunct records that the directory really lies under the
excluded one. -/
theorem walker_exclusion_counterexample :
    enum_files (func [strBytes "/r/excl"]) (strBytes "/r") exclTree []
      = [(strBytes "/r/excl/sub/f", strBytes "/r/excl/sub")] ∧
    strBytes "/r/excl/sub" = strBytes "/r/excl" ++ strBytes "/sub" := by
  refine ⟨?_, by decide⟩
  rfl

/-- C7 amended: no file whose IMMEDIATE directory byte-exactly equals an
exclusion entry, and no file whose immediate directory ends in the
suffix lost+found (when longer than that suffix), is processed by the
backup walk; files lying deeper inside subdirectories of an excluded
directory are not covered by the test and can still be processed, as
the counterexample shows. -/
theorem walker_exclusion_amended (excl : List (List Nat))
    (root : List Nat) (children : Forest) (p d : List Nat)
    (hmem : (p, d) ∈ enum_files (func excl) root children []) :
    d ∉ excl ∧ lostFoundSuffix d = false := by
  rcases walkForest_func_mem excl p d root children [] hmem with h | h
  · exact absurd h (List.not_mem_nil _)
  · exact h

/-- C7 witness: the amended statement at a one-file tree whose directory
is neither excluded nor a lost+found directory. -/
theorem walker_exclusion_amended_witness :
    strBytes "/r" ∉ [strBytes "/x"] ∧
      lostFoundSuffix (strBytes "/r") = false :=
  walker_exclusion_amended [strBytes "/x"] (strBytes "/r")
    (.cons (.file (strBytes "a")) .nil)
    (strBytes "/r/a") (strBytes "/r") (by decide)

end EzBackup
